import Mathlib

/-!
Shallow embedding of the transcript extraction pipeline
(`src/extract_information.py`): line normalization, section tracking,
course-line parsing, result classification, deduplication, CGPA
aggregation and goal projection.  Python floats are modelled as exact
rationals (`ℚ`), Python strings as `String`, dictionaries as
insertion-ordered association lists, and `None` as `Option.none`.
-/

/-- Python `str.split()` (split on whitespace runs, dropping empties),
implemented directly on the character list. -/
def splitWsAux : List Char → List Char → List String
  | [], acc => if acc = [] then [] else [String.mk acc.reverse]
  | c :: cs, acc =>
    if c.isWhitespace then
      if acc = [] then splitWsAux cs []
      else String.mk acc.reverse :: splitWsAux cs []
    else splitWsAux cs (c :: acc)

def splitWs (s : String) : List String := splitWsAux s.data []

/-- Python `str.split(sep)` for a single-character separator, keeping
empty pieces (used for splitting page text on newlines). -/
def splitCharAux (sep : Char) : List Char → List Char → List String
  | [], acc => [String.mk acc.reverse]
  | c :: cs, acc =>
    if c = sep then String.mk acc.reverse :: splitCharAux sep cs []
    else splitCharAux sep cs (c :: acc)

def splitChar (sep : Char) (s : String) : List String := splitCharAux sep s.data []

/-- Python `str.strip()`. -/
def strip (s : String) : String :=
  String.mk (((s.data.dropWhile Char.isWhitespace).reverse.dropWhile Char.isWhitespace).reverse)

def isPrefixL : List Char → List Char → Bool
  | [], _ => true
  | _ :: _, [] => false
  | a :: as, b :: bs => a = b && isPrefixL as bs

/-- Python `sub in s` (substring containment). -/
def containsL (needle : List Char) : List Char → Bool
  | [] => isPrefixL needle []
  | c :: t => isPrefixL needle (c :: t) || containsL needle t

def strContains (s sub : String) : Bool := containsL sub.data s.data

/-- Python `s.split(sep)[0]`: the part of `s` before the first occurrence
of the separator (all of `s` when the separator does not occur). -/
def beforeSep (sep : List Char) : List Char → List Char
  | [] => []
  | c :: t => if isPrefixL sep (c :: t) then [] else c :: beforeSep sep t

def isAlnumCh (c : Char) : Bool := c.isAlpha || c.isDigit

/-- `COURSE_CODE_RE = ^[A-Za-z]{2,5}[A-Za-z0-9]{0,4}\d{3,5}[A-Za-z0-9]{0,3}$`,
as the existence of a split of the string into the four bounded pieces. -/
def courseCodeMatch (s : String) : Bool :=
  let cs := s.data
  ([2, 3, 4, 5] : List ℕ).any fun a =>
    ([0, 1, 2, 3, 4] : List ℕ).any fun b =>
      ([3, 4, 5] : List ℕ).any fun c =>
        ([0, 1, 2, 3] : List ℕ).any fun d =>
          decide (cs.length = a + b + c + d)
          && (cs.take a).all Char.isAlpha
          && ((cs.drop a).take b).all isAlnumCh
          && ((cs.drop (a + b)).take c).all Char.isDigit
          && (cs.drop (a + b + c)).all isAlnumCh

/-- `CREDIT_RE = ^\d+\.\d$`. -/
def isCreditTok (s : String) : Bool :=
  let ds := s.data.takeWhile Char.isDigit
  let rest := s.data.dropWhile Char.isDigit
  !ds.isEmpty && (match rest with
    | [c, d] => c = '.' && d.isDigit
    | _ => false)

/-- `SEM_RE = ^\d{4}/[12]$`. -/
def isSemTok (s : String) : Bool :=
  match s.data with
  | [a, b, c, d, sl, e] =>
    a.isDigit && b.isDigit && c.isDigit && d.isDigit && sl = '/' && (e = '1' || e = '2')
  | _ => false

def digitsToNat (cs : List Char) : ℕ :=
  cs.foldl (fun a c => a * 10 + (c.toNat - 48)) 0

/-- Python `float(tok)` on a token of the shape matched by `CREDIT_RE`
(digits, dot, digits); returns the integer part alone otherwise. -/
def parseCredit (s : String) : ℚ :=
  let intPart := s.data.takeWhile Char.isDigit
  let rest := s.data.dropWhile Char.isDigit
  match rest with
  | c :: frac =>
    if c = '.' then (digitsToNat intPart : ℚ) + (digitsToNat frac : ℚ) / 10 ^ frac.length
    else (digitsToNat intPart : ℚ)
  | [] => (digitsToNat intPart : ℚ)

/-- Python `float(s)` on a plain decimal literal with optional sign
(the only inputs relevant to the target-average prompt); `none` models
the `ValueError` raised on anything else. -/
def pyFloat (s : String) : Option ℚ :=
  let signAndRest : ℚ × List Char :=
    match s.data with
    | '-' :: t => (-1, t)
    | '+' :: t => (1, t)
    | t => (1, t)
  let ip := signAndRest.2.takeWhile Char.isDigit
  let rest := signAndRest.2.dropWhile Char.isDigit
  match rest with
  | [] => if ip.isEmpty then none else some (signAndRest.1 * digitsToNat ip)
  | '.' :: frac =>
    if frac.all Char.isDigit && !(ip.isEmpty && frac.isEmpty) then
      some (signAndRest.1 * ((digitsToNat ip : ℚ) + (digitsToNat frac : ℚ) / 10 ^ frac.length))
    else none
  | _ => none

/-- Python `round(x, n)`; exact on the multiples of `10 ^ (-n)` that the
pipeline produces (half-way behaviour is irrelevant there). -/
def pyRound (x : ℚ) (n : ℕ) : ℚ := ((round (x * 10 ^ n) : ℤ) : ℚ) / 10 ^ n

/-- `GRADE_TO_POINT` dict (4.3 scale), as a lookup function. -/
def GRADE_TO_POINT (s : String) : Option ℚ :=
  if s = "A+" then some (43 / 10)
  else if s = "A" then some 4
  else if s = "A-" then some (37 / 10)
  else if s = "B+" then some (33 / 10)
  else if s = "B" then some 3
  else if s = "B-" then some (27 / 10)
  else if s = "C+" then some (23 / 10)
  else if s = "C" then some 2
  else if s = "D+" then some (13 / 10)
  else if s = "D" then some 1
  else if s = "F" then some 0
  else none

/-- `result in NON_FINAL_RESULTS` for `{"R", "#", "W"}`. -/
def isNonFinal (s : String) : Bool := s == "R" || s == "#" || s == "W"

/-- `result in NO_GRADE_RESULTS` for `{"RC"}`. -/
def isNoGrade (s : String) : Bool := s == "RC"

structure CourseRecord where
  course_code : String
  course_title : String
  credits : ℚ
  result : String
  year_sem : String
  duplicate : Bool
  sectionName : String   -- source field `section` (a keyword in Lean)
  status : String
  grade_point : Option ℚ
deriving DecidableEq, Repr

/-- `classify_result` (lines 146-164). -/
def classify_result (result : String) : String × Option ℚ :=
  if result = "" then ("unknown", none)
  else
    match GRADE_TO_POINT result with
    | some p => ("included", some p)
    | none =>
      if isNonFinal result then ("excluded", none)
      else if isNoGrade result then ("excluded", none)
      else ("unknown", none)

/-- The credit-token scan of `parse_course_from_line` (lines 96-102):
first token matching `CREDIT_RE`, with the tokens before and after it. -/
def splitAtCredit : List String → Option (List String × String × List String)
  | [] => none
  | t :: ts =>
    if isCreditTok t then some ([], t, ts)
    else
      match splitAtCredit ts with
      | none => none
      | some (pre, c, post) => some (t :: pre, c, post)

/-- Third stripping step (lines 127-129): first remaining token is the result. -/
def stripResult (rest : List String) (ys : String) (dup : Bool) : String × String × Bool :=
  match rest with
  | [] => ("", ys, dup)
  | t :: _ => (t, ys, dup)

/-- Second stripping step (lines 122-125): trailing `YYYY/{1,2}` token. -/
def stripSem (rest : List String) (dup : Bool) : String × String × Bool :=
  match rest.getLast? with
  | some t => if isSemTok t then stripResult rest.dropLast t dup else stripResult rest "" dup
  | none => stripResult rest "" dup

/-- Right-to-left trailing-token stripping (lines 112-129), returning
`(result, year_sem, duplicate)`: duplicate flag first, then term, then result. -/
def stripTrailing (rest : List String) : String × String × Bool :=
  match rest.getLast? with
  | some t => if t = "Y" then stripSem rest.dropLast true else stripSem rest false
  | none => stripSem rest false

/-- `parse_course_from_line` (lines 82-143). -/
def parse_course_from_line (line : String) (sec : String) : Option CourseRecord :=
  match splitWs line with
  | [] => none
  | code :: rest0 =>
    if courseCodeMatch code then
      match splitAtCredit rest0 with
      | none => none
      | some (titleToks, creditTok, rest) =>
        let res := stripTrailing rest
        some
          { course_code := code
            course_title := strip (String.intercalate " " titleToks)
            credits := parseCredit creditTok
            result := res.1
            year_sem := res.2.1
            duplicate := res.2.2
            sectionName := sec
            status := (classify_result res.1).1
            grade_point := (classify_result res.1).2 }
    else none

/-- `normalize_lines` (lines 51-58). -/
def normalize_lines (pages : List String) : List String :=
  pages.flatMap fun text =>
    ((splitChar '\n' text).map fun l => String.intercalate " " (splitWs l)).filter
      fun l => l != ""

def sectionPhrases : List String := ["Compulsory", "COMP Elective", "Free elective", "WIE"]

def wordChar (c : Char) : Bool := c.isAlpha || c.isDigit || c = '_'

/-- A phrase matches at the front of `cs` followed by a word boundary. -/
def phraseAt (cs : List Char) (p : String) : Bool :=
  isPrefixL p.data cs &&
    (match cs.drop p.data.length with
     | [] => true
     | c :: _ => !wordChar c)

/-- `re.match(r"^\d+/\d+\s+(Compulsory|COMP Elective|Free elective|WIE)\b", line)`,
returning the matched group. -/
def matchSectionHeader (line : String) : Option String :=
  let cs := line.data
  let d1 := cs.takeWhile Char.isDigit
  if d1.isEmpty then none
  else
    match cs.dropWhile Char.isDigit with
    | '/' :: r2 =>
      let d2 := r2.takeWhile Char.isDigit
      if d2.isEmpty then none
      else
        let r3 := r2.dropWhile Char.isDigit
        let ws := r3.takeWhile Char.isWhitespace
        if ws.isEmpty then none
        else sectionPhrases.find? (phraseAt (r3.dropWhile Char.isWhitespace))
    | _ => none

/-- `detect_section` (lines 60-80). -/
def detect_section (line : String) (current : String) : String :=
  if strip line = "Major/DSR" then "Major/DSR"
  else
    match matchSectionHeader line with
    | some phrase =>
      if strContains current "Major/DSR" then
        String.mk (beforeSep (" - ").data current.data) ++ " - " ++ phrase
      else phrase
    | none =>
      if strip line = "GUR" ∨ strip line = "LCR" then strip line
      else if strContains line "(Service Learning)" then "Service Learning"
      else if strContains line "(LIPD)" then "LIPD"
      else if strContains line "(LCR-Chinese)" then "LCR-Chinese"
      else if strContains line "(LCR-English)" then "LCR-English"
      else current

/-- Dedup priority score (lines 176-179). -/
def score (r : CourseRecord) : ℕ × ℕ :=
  ((if r.status = "included" then 2 else if r.status = "excluded" then 1 else 0),
   (if r.year_sem ≠ "" then 1 else 0))

/-- Python tuple comparison `a < b` on pairs (lexicographic). -/
def scoreLtB (a b : ℕ × ℕ) : Bool :=
  decide (a.1 < b.1) || (decide (a.1 = b.1) && decide (a.2 < b.2))

structure DedupLog where
  course_code : String
  dropped_section : String
  kept_section : String
  reason : String
deriving DecidableEq, Repr

/-- Lookup in the insertion-ordered association list modelling `chosen`. -/
def alistFind (k : String) : List (String × CourseRecord) → Option CourseRecord
  | [] => none
  | (k', v) :: t => if k' = k then some v else alistFind k t

/-- In-place value update (`chosen[key] = r` on an existing key). -/
def alistSet (k : String) (v : CourseRecord) :
    List (String × CourseRecord) → List (String × CourseRecord)
  | [] => []
  | (k', v') :: t => if k' = k then (k', v) :: t else (k', v') :: alistSet k v t

/-- The loop of `dedup_by_course_code` (lines 181-204). -/
def dedupFold : List CourseRecord → List (String × CourseRecord) → List DedupLog →
    List (String × CourseRecord) × List DedupLog
  | [], chosen, logs => (chosen, logs)
  | r :: rs, chosen, logs =>
    match alistFind r.course_code chosen with
    | none => dedupFold rs (chosen ++ [(r.course_code, r)]) logs
    | some kept =>
      if scoreLtB (score kept) (score r) then
        dedupFold rs (alistSet r.course_code r chosen)
          (logs ++ [{ course_code := kept.course_code
                      dropped_section := kept.sectionName
                      kept_section := r.sectionName
                      reason := "dedup_replaced_with_higher_priority_record" }])
      else
        dedupFold rs chosen
          (logs ++ [{ course_code := r.course_code
                      dropped_section := r.sectionName
                      kept_section := kept.sectionName
                      reason := "dedup_dropped_lower_priority_record" }])

/-- `dedup_by_course_code` (lines 167-206). -/
def dedup_by_course_code (records : List CourseRecord) :
    List CourseRecord × List DedupLog :=
  let res := dedupFold records [] []
  (res.1.map (·.2), res.2)

/-- The `included` filter of `compute_cgpa` (line 210). -/
def includedRecords (records : List CourseRecord) : List CourseRecord :=
  records.filter fun r => r.status == "included" && r.grade_point.isSome

def totalCreditsOf (records : List CourseRecord) : ℚ :=
  ((includedRecords records).map (·.credits)).sum

def totalGpOf (records : List CourseRecord) : ℚ :=
  ((includedRecords records).map fun r => r.credits * r.grade_point.getD 0).sum

/-- The unrounded average (line 213): `total_gp / total_credits` if positive
credits, else `None`. -/
def cgpaOf (records : List CourseRecord) : Option ℚ :=
  if 0 < totalCreditsOf records then some (totalGpOf records / totalCreditsOf records)
  else none

structure CgpaInfo where
  current_cgpa : Option ℚ
  total_credits_counted : ℚ
  grade_points_sum : ℚ
deriving DecidableEq, Repr

/-- `compute_cgpa` (lines 209-218). -/
def compute_cgpa (records : List CourseRecord) : CgpaInfo :=
  { current_cgpa := (cgpaOf records).map (pyRound · 3)
    total_credits_counted := pyRound (totalCreditsOf records) 1
    grade_points_sum := pyRound (totalGpOf records) 3 }

/-- Python `min(·, key)`: left fold keeping the earliest element whose key
is minimal, replacing only on a strictly better candidate. -/
def chooseFold (btr : α → α → Bool) : List α → α → α
  | [], best => best
  | b :: bs, best => chooseFold btr bs (if btr b best then b else best)

def pyMinBy (d : α → ℚ) : List α → Option α
  | [] => none
  | b :: bs => some (chooseFold (fun x y => decide (d x < d y)) bs b)

/-- The fixed band table of `compute_goal_strategy` (lines 233-237). -/
def bands : List (String × ℚ) :=
  [("A+", 43 / 10), ("A", 4), ("A-", 37 / 10),
   ("B+", 33 / 10), ("B", 3), ("B-", 27 / 10),
   ("C+", 23 / 10), ("C", 2)]

structure GoalStrategy where
  goal_cgpa : ℚ
  total_required_credits : ℚ
  remaining_credits : ℚ
  required_average_gp : Option ℚ
  required_letter_equivalent : Option String
deriving DecidableEq, Repr

/-- `compute_goal_strategy` (lines 221-248). -/
def compute_goal_strategy (current_gp_sum current_credits total_required_credits
    goal_cgpa : ℚ) : GoalStrategy :=
  let remaining := total_required_credits - current_credits
  let needed_total_gp := total_required_credits * goal_cgpa
  let needed_from_remaining := needed_total_gp - current_gp_sum
  let required_avg : Option ℚ :=
    if 0 < remaining then some (needed_from_remaining / remaining) else none
  let letter_equiv : Option String :=
    match required_avg with
    | none => none
    | some ra => (pyMinBy (fun b => |b.2 - ra|) bands).map fun c => "~" ++ c.1
  { goal_cgpa := goal_cgpa
    total_required_credits := total_required_credits
    remaining_credits := pyRound remaining 1
    required_average_gp := required_avg.map (pyRound · 3)
    required_letter_equivalent := letter_equiv }

/-- The per-line fold of `main` (lines 258-265): thread the section through
`detect_section` and collect parsed records in order. -/
def pipelineRecords (lines : List String) : List CourseRecord :=
  (lines.foldl
    (fun (st : String × List CourseRecord) line =>
      let sec := detect_section line st.1
      match parse_course_from_line line sec with
      | some r => (sec, st.2 ++ [r])
      | none => (sec, st.2))
    ("UNKNOWN", [])).2

/-- Observable stages of `main`, in execution order: the core pipeline
(lines 255-286) runs before the target is read and converted (lines
288-295); a conversion failure is an uncaught exception. -/
inductive Stage
  | pipeline
  | goalProjection
  | failure
deriving DecidableEq, Repr

/-- `main` (lines 251-295), reduced to its data flow: pipeline first, then
target parsing, then goal projection with the reported (rounded) sums and
the fixed 109.0 credit requirement. -/
def mainModel (pages : List String) (goalInput : String) :
    List Stage × Option GoalStrategy :=
  let lines := normalize_lines pages
  let records := pipelineRecords lines
  let dd := dedup_by_course_code records
  let info := compute_cgpa dd.1
  match pyFloat (strip goalInput) with
  | none => ([Stage.pipeline, Stage.failure], none)
  | some g =>
    ([Stage.pipeline, Stage.goalProjection],
     some (compute_goal_strategy info.grade_points_sum info.total_credits_counted 109 g))

def sampleRecordA : CourseRecord :=
  { course_code := "COMP1000"
    course_title := ""
    credits := parseCredit "3.0"
    result := "A"
    year_sem := ""
    duplicate := false
    sectionName := "GUR"
    status := "included"
    grade_point := some 4 }

/-- The section strings a header line can set: a fixed literal, a matched
phrase, or a `"Major/DSR"`-prefixed phrase. -/
def headerForm (s : String) : Prop :=
  s ∈ (["Major/DSR", "GUR", "LCR", "Service Learning", "LIPD",
        "LCR-Chinese", "LCR-English"] : List String) ∨
  ∃ p ∈ sectionPhrases, s = p ∨ ∃ x : String, s = x ++ " - " ++ p

/-- Credits and grade points produced by the parser are integer multiples
of one tenth (credits match `\d+\.\d`; grade points come from the fixed
table). -/
def tenthGrained (r : CourseRecord) : Prop :=
  (∃ n : ℕ, r.credits = n / 10) ∧
  ∀ g : ℚ, r.grade_point = some g → ∃ m : ℕ, g = m / 10

/-- One step of per-code conflict resolution: first record is kept
tentatively, a strictly higher score replaces, ties keep the incumbent. -/
def pickStep (acc : Option CourseRecord) (r : CourseRecord) : Option CourseRecord :=
  match acc with
  | none => some r
  | some kept => if scoreLtB (score kept) (score r) then some r else some kept

/-- The per-code projection of the dedup fold. -/
def pickFrom (acc : Option CourseRecord) (l : List CourseRecord) : Option CourseRecord :=
  l.foldl pickStep acc

/-- Keys-to-record coherence of the `chosen` association list. -/
def alistInv (l : List (String × CourseRecord)) : Prop :=
  ∀ p ∈ l, p.2.course_code = p.1

def sampleRecordU : CourseRecord :=
  { course_code := "APSS1A01"
    course_title := "t"
    credits := 3
    result := ""
    year_sem := ""
    duplicate := false
    sectionName := "GUR"
    status := "unknown"
    grade_point := none }

def sampleRecordB : CourseRecord :=
  { course_code := "APSS1A01"
    course_title := "t"
    credits := 3
    result := "B"
    year_sem := ""
    duplicate := false
    sectionName := "GUR"
    status := "included"
    grade_point := some 3 }

lemma splitAtCredit_credit : ∀ (ts pre : List String) (c : String) (post : List String),
    splitAtCredit ts = some (pre, c, post) → isCreditTok c = true := by
  intro ts
  induction ts with
  | nil => intro pre c post h; cases h
  | cons t ts ih =>
    intro pre c post h
    unfold splitAtCredit at h
    by_cases hc : isCreditTok t
    · rw [if_pos hc] at h
      cases h
      exact hc
    · rw [if_neg hc] at h
      cases hrec : splitAtCredit ts with
      | none => rw [hrec] at h; cases h
      | some v =>
        rw [hrec] at h
        cases h
        exact ih v.1 v.2.1 v.2.2 hrec

lemma parse_shape (line sec : String) (r : CourseRecord)
    (h : parse_course_from_line line sec = some r) :
    r.status = (classify_result r.result).1 ∧
    r.grade_point = (classify_result r.result).2 ∧
    r.sectionName = sec ∧
    ∃ t : String, isCreditTok t = true ∧ r.credits = parseCredit t := by
  unfold parse_course_from_line at h
  cases hsp : splitWs line with
  | nil => rw [hsp] at h; cases h
  | cons code rest0 =>
    rw [hsp] at h
    dsimp only at h
    by_cases hc : courseCodeMatch code
    · rw [if_pos hc] at h
      cases hsac : splitAtCredit rest0 with
      | none => rw [hsac] at h; cases h
      | some v =>
        rw [hsac] at h
        simp only [Option.some.injEq] at h
        subst h
        exact ⟨rfl, rfl, rfl, v.2.1, splitAtCredit_credit rest0 v.1 v.2.1 v.2.2 hsac, rfl⟩
    · rw [if_neg hc] at h; cases h

lemma classify_spec (s : String) :
    ((classify_result s).2 ≠ none ↔ (classify_result s).1 = "included") ∧
    ((classify_result s).1 = "included" ↔ (GRADE_TO_POINT s).isSome = true) := by
  unfold classify_result
  by_cases h0 : s = ""
  · subst h0; decide
  · rw [if_neg h0]
    cases hg : GRADE_TO_POINT s with
    | some p => simp [hg]
    | none =>
      by_cases h1 : isNonFinal s
      · simp [hg, h1]
      · by_cases h2 : isNoGrade s
        · simp [hg, h1, h2]
        · simp [hg, h1, h2]

/-- Claim C2: any record produced by `parse_course_from_line` satisfies the
coupling invariant: `grade_point` is non-`None` iff `status = "included"`,
and `status = "included"` iff `result` is a key of the grade table. -/
theorem parse_status_grade_point_coupling (line sec : String) (r : CourseRecord)
    (h : parse_course_from_line line sec = some r) :
    (r.grade_point ≠ none ↔ r.status = "included") ∧
    (r.status = "included" ↔ (GRADE_TO_POINT r.result).isSome = true) := by
  obtain ⟨h1, h2, -, -⟩ := parse_shape line sec r h
  rw [h1, h2]
  exact classify_spec r.result

theorem parse_status_grade_point_coupling_witness :
    (sampleRecordA.grade_point ≠ none ↔ sampleRecordA.status = "included") ∧
    (sampleRecordA.status = "included" ↔ (GRADE_TO_POINT sampleRecordA.result).isSome = true) :=
  parse_status_grade_point_coupling "COMP1000 3.0 A" "GUR" sampleRecordA (by rfl)

/-- Claim C4: `classify_result` implements exactly the fixed case table:
empty and unrecognized tokens map to `("unknown", None)`, the eleven letter
grades to `("included", 4.3-scale point)`, and `R`, `#`, `W`, `RC` to
`("excluded", None)`. -/
theorem classify_result_table_spec :
    (classify_result "" = ("unknown", none) ∧
     classify_result "A+" = ("included", some (43 / 10)) ∧
     classify_result "A" = ("included", some 4) ∧
     classify_result "A-" = ("included", some (37 / 10)) ∧
     classify_result "B+" = ("included", some (33 / 10)) ∧
     classify_result "B" = ("included", some 3) ∧
     classify_result "B-" = ("included", some (27 / 10)) ∧
     classify_result "C+" = ("included", some (23 / 10)) ∧
     classify_result "C" = ("included", some 2) ∧
     classify_result "D+" = ("included", some (13 / 10)) ∧
     classify_result "D" = ("included", some 1) ∧
     classify_result "F" = ("included", some 0) ∧
     classify_result "R" = ("excluded", none) ∧
     classify_result "#" = ("excluded", none) ∧
     classify_result "W" = ("excluded", none) ∧
     classify_result "RC" = ("excluded", none)) ∧
    ∀ s : String,
      s ∉ (["", "A+", "A", "A-", "B+", "B", "B-", "C+", "C", "D+", "D", "F",
            "R", "#", "W", "RC"] : List String) →
      classify_result s = ("unknown", none) := by
  constructor
  · exact ⟨rfl, rfl, rfl, rfl, rfl, rfl, rfl, rfl, rfl, rfl, rfl, rfl, rfl, rfl, rfl, rfl⟩
  · intro s hs
    simp only [List.mem_cons, List.not_mem_nil, or_false, not_or] at hs
    obtain ⟨h0, h1, h2, h3, h4, h5, h6, h7, h8, h9, h10, h11, h12, h13, h14, h15⟩ := hs
    simp [classify_result, GRADE_TO_POINT, isNonFinal, isNoGrade,
      h0, h1, h2, h3, h4, h5, h6, h7, h8, h9, h10, h11, h12, h13, h14, h15]

theorem classify_result_table_spec_witness :
    classify_result "Z" = ("unknown", none) :=
  classify_result_table_spec.2 "Z" (by decide)

/-- Claim C3: `compute_cgpa` averages exactly over the records with status
`"included"` and non-null grade point: the average is the credit-weighted
grade-point sum divided by the credit sum when the credit sum is positive,
and an explicit `none` when it is zero, so no division by zero occurs. -/
theorem compute_cgpa_average_spec (records : List CourseRecord) :
    totalCreditsOf records =
      ((records.filter fun r => r.status == "included" && r.grade_point.isSome).map
        (·.credits)).sum ∧
    totalGpOf records =
      ((records.filter fun r => r.status == "included" && r.grade_point.isSome).map
        fun r => r.credits * r.grade_point.getD 0).sum ∧
    (0 < totalCreditsOf records →
      cgpaOf records = some (totalGpOf records / totalCreditsOf records) ∧
      (compute_cgpa records).current_cgpa =
        some (pyRound (totalGpOf records / totalCreditsOf records) 3)) ∧
    (totalCreditsOf records = 0 →
      cgpaOf records = none ∧ (compute_cgpa records).current_cgpa = none) := by
  refine ⟨rfl, rfl, ?_, ?_⟩
  · intro h
    have hc : cgpaOf records = some (totalGpOf records / totalCreditsOf records) := by
      simp only [cgpaOf, if_pos h]
    exact ⟨hc, by simp [compute_cgpa, hc]⟩
  · intro h
    have hnot : ¬ 0 < totalCreditsOf records := by rw [h]; exact lt_irrefl 0
    have hc : cgpaOf records = none := by simp only [cgpaOf, if_neg hnot]
    exact ⟨hc, by simp [compute_cgpa, hc]⟩

theorem compute_cgpa_average_spec_witness :
    cgpaOf [] = none ∧ (compute_cgpa []).current_cgpa = none :=
  (compute_cgpa_average_spec []).2.2.2 (by decide)

/-- Claim C8: with positive current credits and positive remaining credits,
setting the goal average to the current average `S / C` makes the required
remaining average `(T * (S / C) - S) / (T - C)` equal to `S / C`; the
reported field is its 3-decimal rounding. -/
theorem goal_projection_idempotence (S C T g : ℚ) (h1 : 0 < C) (h2 : 0 < T - C)
    (hg : g = S / C) :
    (compute_goal_strategy S C T g).required_average_gp = some (pyRound (S / C) 3) := by
  subst hg
  have key : (T * (S / C) - S) / (T - C) = S / C := by
    rw [div_eq_div_iff h2.ne' h1.ne']
    field_simp
    ring
  simp only [compute_goal_strategy, if_pos h2, Option.map_some']
  rw [key]

theorem goal_projection_idempotence_witness :
    (compute_goal_strategy 30 10 109 3).required_average_gp =
      some (pyRound (30 / 10) 3) :=
  goal_projection_idempotence 30 10 109 3 (by norm_num) (by norm_num) (by norm_num)

/-- Claim C5: tokens after the credits token are stripped right-to-left in
the order duplicate flag, then term, then result; in particular a line of
the form `code credits result "Y"` (no term token) parses with
`duplicate = true` and that result token as `result`. -/
theorem parse_trailing_strip_order (line sec code cr res : String)
    (hline : splitWs line = [code, cr, res, "Y"])
    (hcode : courseCodeMatch code = true)
    (hcr : isCreditTok cr = true)
    (hres : isSemTok res = false) :
    parse_course_from_line line sec = some
      { course_code := code
        course_title := ""
        credits := parseCredit cr
        result := res
        year_sem := ""
        duplicate := true
        sectionName := sec
        status := (classify_result res).1
        grade_point := (classify_result res).2 } := by
  have hsac : splitAtCredit [cr, res, "Y"] = some ([], cr, [res, "Y"]) := by
    unfold splitAtCredit
    rw [if_pos hcr]
  have hst : stripTrailing [res, "Y"] = (res, "", true) := by
    unfold stripTrailing
    simp only [List.getLast?_cons_cons, List.getLast?_singleton, if_pos rfl]
    unfold stripSem
    simp only [List.dropLast, List.getLast?_singleton, hres, Bool.false_eq_true, if_false]
    rfl
  unfold parse_course_from_line
  rw [hline]
  simp only [hcode, if_true, hsac, hst]
  rfl

theorem parse_trailing_strip_order_witness :
    parse_course_from_line "COMP1000 3.0 B+ Y" "GUR" = some
      { course_code := "COMP1000"
        course_title := ""
        credits := parseCredit "3.0"
        result := "B+"
        year_sem := ""
        duplicate := true
        sectionName := "GUR"
        status := (classify_result "B+").1
        grade_point := (classify_result "B+").2 } :=
  parse_trailing_strip_order "COMP1000 3.0 B+ Y" "GUR" "COMP1000" "3.0" "B+"
    (by decide) (by decide) (by decide) (by decide)

lemma chooseFold_spec {α : Type} (btr : α → α → Bool)
    (hT1 : ∀ a b c, btr a b = true → btr b c = true → btr a c = true)
    (hT3 : ∀ a b c, btr a c = true → btr b c = false → btr a b = true) :
    ∀ (bs : List α) (best : α),
      (chooseFold btr bs best = best ∧ ∀ b ∈ bs, btr b (chooseFold btr bs best) = false) ∨
      (∃ l₁ l₂, bs = l₁ ++ chooseFold btr bs best :: l₂ ∧
        btr (chooseFold btr bs best) best = true ∧
        (∀ b ∈ l₁, btr (chooseFold btr bs best) b = true) ∧
        (∀ b ∈ l₂, btr b (chooseFold btr bs best) = false)) := by
  intro bs
  induction bs with
  | nil => intro best; left; exact ⟨rfl, by simp⟩
  | cons b bs ih =>
    intro best
    by_cases hb : btr b best = true
    · have hcf : chooseFold btr (b :: bs) best = chooseFold btr bs b := by
        simp [chooseFold, hb]
      rw [hcf]
      rcases ih b with ⟨heq, hall⟩ | ⟨l₁, l₂, hsplit, hbt, hl₁, hl₂⟩
      · right
        refine ⟨[], bs, by simp [heq], ?_, by simp, hall⟩
        rw [heq]; exact hb
      · right
        refine ⟨b :: l₁, l₂, by rw [List.cons_append, ← hsplit], hT1 _ b best hbt hb, ?_, hl₂⟩
        intro x hx
        rcases List.mem_cons.mp hx with rfl | hx'
        · exact hbt
        · exact hl₁ x hx'
    · have hb' : btr b best = false := by
        cases hbb : btr b best
        · rfl
        · exact absurd hbb hb
      have hcf : chooseFold btr (b :: bs) best = chooseFold btr bs best := by
        simp [chooseFold, hb']
      rw [hcf]
      rcases ih best with ⟨heq, hall⟩ | ⟨l₁, l₂, hsplit, hbt, hl₁, hl₂⟩
      · left
        refine ⟨heq, ?_⟩
        intro x hx
        rcases List.mem_cons.mp hx with rfl | hx'
        · rw [heq]; exact hb'
        · exact hall x hx'
      · right
        refine ⟨b :: l₁, l₂, by rw [List.cons_append, ← hsplit], hbt, ?_, hl₂⟩
        intro x hx
        rcases List.mem_cons.mp hx with hxb | hx'
        · rw [hxb]; exact hT3 _ b best hbt hb'
        · exact hl₁ x hx'

lemma pyMinBy_spec {α : Type} (d : α → ℚ) (l : List α) (m : α)
    (h : pyMinBy d l = some m) :
    ∃ l₁ l₂, l = l₁ ++ m :: l₂ ∧ (∀ b ∈ l₁, d m < d b) ∧ (∀ b ∈ l₂, d m ≤ d b) := by
  cases l with
  | nil => cases h
  | cons b bs =>
    simp only [pyMinBy, Option.some.injEq] at h
    subst h
    have hT1 : ∀ x y z : α, decide (d x < d y) = true → decide (d y < d z) = true →
        decide (d x < d z) = true := by
      intro x y z hxy hyz
      simp only [decide_eq_true_eq] at hxy hyz ⊢
      exact lt_trans hxy hyz
    have hT3 : ∀ x y z : α, decide (d x < d z) = true → decide (d y < d z) = false →
        decide (d x < d y) = true := by
      intro x y z hxz hyz
      simp only [decide_eq_true_eq] at hxz ⊢
      simp only [decide_eq_false_iff_not] at hyz
      exact lt_of_lt_of_le hxz (not_lt.mp hyz)
    rcases chooseFold_spec _ hT1 hT3 bs b with ⟨heq, hall⟩ | ⟨l₁, l₂, hsplit, hbt, hl₁, hl₂⟩
    · refine ⟨[], bs, by simp [heq], by simp, ?_⟩
      intro x hx
      have hx' := hall x hx
      simp only [decide_eq_false_iff_not] at hx'
      exact not_lt.mp hx'
    · refine ⟨b :: l₁, l₂, by rw [List.cons_append, ← hsplit], ?_, ?_⟩
      · intro x hx
        rcases List.mem_cons.mp hx with rfl | hx'
        · exact decide_eq_true_eq.mp hbt
        · exact decide_eq_true_eq.mp (hl₁ x hx')
      · intro x hx
        have hx' := hl₂ x hx
        simp only [decide_eq_false_iff_not] at hx'
        exact not_lt.mp hx'

lemma bands_value_bounds : ∀ b ∈ bands, 2 ≤ b.2 ∧ b.2 ≤ 43 / 10 := by
  intro b hb
  simp only [bands] at hb
  fin_cases hb <;> norm_num

lemma bands_two_only : ∀ b ∈ bands, b.2 ≤ 2 → b = ("C", 2) := by
  intro b hb
  simp only [bands] at hb
  fin_cases hb <;> intro h2 <;> first | rfl | (exfalso; norm_num at h2)

/-- Claim C6: for a defined required average, the reported letter label is
`"~"` prefixed to the band minimizing absolute distance over the ordered
band table, ties broken by the earlier band in table order, with no
clamping: averages at or beyond the endpoints return the endpoint bands. -/
theorem goal_letter_band_nearest (S C T g : ℚ) (h : 0 < T - C) :
    ∃ m l₁ l₂,
      bands = l₁ ++ m :: l₂ ∧
      (compute_goal_strategy S C T g).required_letter_equivalent = some ("~" ++ m.1) ∧
      (∀ b ∈ l₁, |m.2 - (T * g - S) / (T - C)| < |b.2 - (T * g - S) / (T - C)|) ∧
      (∀ b ∈ l₂, |m.2 - (T * g - S) / (T - C)| ≤ |b.2 - (T * g - S) / (T - C)|) ∧
      (43 / 10 ≤ (T * g - S) / (T - C) → m = ("A+", 43 / 10)) ∧
      ((T * g - S) / (T - C) ≤ 2 → m = ("C", 2)) := by
  cases hm0 : pyMinBy (fun b => |b.2 - (T * g - S) / (T - C)|) bands with
  | none => simp [pyMinBy, bands] at hm0
  | some m0 =>
    have hlet : (compute_goal_strategy S C T g).required_letter_equivalent =
        some ("~" ++ m0.1) := by
      simp only [compute_goal_strategy, if_pos h]
      rw [hm0]
      rfl
    obtain ⟨l₁, l₂, hsplit, hlt, hle⟩ := pyMinBy_spec _ _ _ hm0
    have hmem : m0 ∈ bands := by
      rw [hsplit]; exact List.mem_append_right _ (List.mem_cons_self _ _)
    refine ⟨m0, l₁, l₂, hsplit, hlet, hlt, hle, ?_, ?_⟩
    · intro hhigh
      cases l₁ with
      | nil =>
        simp only [List.nil_append, bands] at hsplit
        injection hsplit with h1 _
        exact h1.symm
      | cons p l₁' =>
        have hp : p = ("A+", 43 / 10) := by
          rw [List.cons_append] at hsplit
          simp only [bands] at hsplit
          injection hsplit with h1 _
          exact h1.symm
        have hlt' := hlt p (List.mem_cons_self p l₁')
        rw [hp] at hlt'
        have hub := (bands_value_bounds m0 hmem).2
        have h1 : |(43 / 10 : ℚ) - (T * g - S) / (T - C)| =
            (T * g - S) / (T - C) - 43 / 10 := by
          rw [abs_sub_comm]; exact abs_of_nonneg (by linarith)
        have h2 : |m0.2 - (T * g - S) / (T - C)| =
            (T * g - S) / (T - C) - m0.2 := by
          rw [abs_sub_comm]; exact abs_of_nonneg (by linarith)
        rw [h1, h2] at hlt'
        exact absurd hlt' (by linarith)
    · intro hlow
      have hlast : bands.getLast? = some ("C", 2) := by rfl
      rcases List.eq_nil_or_concat l₂ with rfl | ⟨l₂', x, rfl⟩
      · rw [hsplit] at hlast
        have hl0 : (l₁ ++ [m0]).getLast? = some m0 := List.getLast?_concat _
        rw [hl0] at hlast
        exact Option.some.inj hlast
      · rw [List.concat_eq_append] at hsplit hle
        have hx : x = ("C", 2) := by
          rw [hsplit] at hlast
          have hre : l₁ ++ m0 :: (l₂' ++ [x]) = (l₁ ++ m0 :: l₂') ++ [x] := by
            simp
          rw [hre, List.getLast?_concat] at hlast
          exact Option.some.inj hlast
        have hle' := hle x (List.mem_append_right _ (List.mem_cons_self x []))
        rw [hx] at hle'
        have hlb := (bands_value_bounds m0 hmem).1
        have h1 : |(2 : ℚ) - (T * g - S) / (T - C)| = 2 - (T * g - S) / (T - C) :=
          abs_of_nonneg (by linarith)
        have h2 : |m0.2 - (T * g - S) / (T - C)| = m0.2 - (T * g - S) / (T - C) :=
          abs_of_nonneg (by linarith)
        rw [h1, h2] at hle'
        exact bands_two_only m0 hmem (by linarith)

theorem goal_letter_band_nearest_witness :
    ∃ m l₁ l₂,
      bands = l₁ ++ m :: l₂ ∧
      (compute_goal_strategy 30 10 109 (7 / 2)).required_letter_equivalent =
        some ("~" ++ m.1) ∧
      (∀ b ∈ l₁, |m.2 - (109 * (7 / 2) - 30) / (109 - 10)| <
        |b.2 - (109 * (7 / 2) - 30) / (109 - 10)|) ∧
      (∀ b ∈ l₂, |m.2 - (109 * (7 / 2) - 30) / (109 - 10)| ≤
        |b.2 - (109 * (7 / 2) - 30) / (109 - 10)|) ∧
      ((43 : ℚ) / 10 ≤ (109 * (7 / 2) - 30) / (109 - 10) → m = ("A+", 43 / 10)) ∧
      (((109 : ℚ) * (7 / 2) - 30) / (109 - 10) ≤ 2 → m = ("C", 2)) :=
  goal_letter_band_nearest 30 10 109 (7 / 2) (by norm_num)

lemma append_ne_of_last {l₂ m : List Char} (l₁ : List Char) (c c' : Char)
    (h₂ : l₂.getLast? = some c) (hm : m.getLast? = some c') (hne : c ≠ c') :
    l₁ ++ l₂ ≠ m := by
  intro h
  have hlast := congrArg List.getLast? h
  rw [List.getLast?_append, h₂, hm] at hlast
  exact hne (Option.some.inj hlast)

lemma concat_ne_unknown (p : String) (hp : p ∈ sectionPhrases) (x : String) :
    x ++ " - " ++ p ≠ "UNKNOWN" := by
  simp only [sectionPhrases] at hp
  fin_cases hp
  · intro h
    have hd := congrArg String.data h
    rw [String.data_append, String.data_append] at hd
    exact append_ne_of_last _ 'y' 'N' (by decide) (by decide) (by decide) hd
  · intro h
    have hd := congrArg String.data h
    rw [String.data_append, String.data_append] at hd
    exact append_ne_of_last _ 'e' 'N' (by decide) (by decide) (by decide) hd
  · intro h
    have hd := congrArg String.data h
    rw [String.data_append, String.data_append] at hd
    exact append_ne_of_last _ 'e' 'N' (by decide) (by decide) (by decide) hd
  · intro h
    have hd := congrArg String.data h
    rw [String.data_append, String.data_append] at hd
    exact append_ne_of_last _ 'E' 'N' (by decide) (by decide) (by decide) hd

lemma matchSectionHeader_mem (line : String) (p : String)
    (h : matchSectionHeader line = some p) : p ∈ sectionPhrases := by
  simp only [matchSectionHeader] at h
  split at h
  · cases h
  · split at h
    · split at h
      · cases h
      · split at h
        · cases h
        · exact List.mem_of_find?_eq_some h
    · cases h

lemma headerForm_ne_unknown (s : String) (h : headerForm s) : s ≠ "UNKNOWN" := by
  rcases h with hmem | ⟨p, hp, hps | ⟨x, hx⟩⟩
  · fin_cases hmem <;> decide
  · subst hps
    simp only [sectionPhrases] at hp
    fin_cases hp <;> decide
  · rw [hx]
    exact concat_ne_unknown p hp x

lemma detect_section_cases (line current : String) :
    detect_section line current = current ∨ headerForm (detect_section line current) := by
  unfold detect_section
  by_cases h1 : strip line = "Major/DSR"
  · rw [if_pos h1]; right; left; decide
  · rw [if_neg h1]
    cases hm : matchSectionHeader line with
    | some p =>
      dsimp only
      have hp := matchSectionHeader_mem line p hm
      by_cases h2 : strContains current "Major/DSR" = true
      · rw [if_pos h2]
        right; right
        exact ⟨p, hp, Or.inr ⟨String.mk (beforeSep (" - ").data current.data), rfl⟩⟩
      · rw [if_neg h2]
        right; right
        exact ⟨p, hp, Or.inl rfl⟩
    | none =>
      dsimp only
      by_cases h3 : strip line = "GUR" ∨ strip line = "LCR"
      · rw [if_pos h3]
        right; left
        rcases h3 with h3 | h3 <;> rw [h3] <;> decide
      · rw [if_neg h3]
        by_cases h4 : strContains line "(Service Learning)" = true
        · rw [if_pos h4]; right; left; decide
        · rw [if_neg h4]
          by_cases h5 : strContains line "(LIPD)" = true
          · rw [if_pos h5]; right; left; decide
          · rw [if_neg h5]
            by_cases h6 : strContains line "(LCR-Chinese)" = true
            · rw [if_pos h6]; right; left; decide
            · rw [if_neg h6]
              by_cases h7 : strContains line "(LCR-English)" = true
              · rw [if_pos h7]; right; left; decide
              · rw [if_neg h7]; left; rfl

lemma detect_section_ne_unknown (line current : String) (h : current ≠ "UNKNOWN") :
    detect_section line current ≠ "UNKNOWN" := by
  rcases detect_section_cases line current with heq | hform
  · rw [heq]; exact h
  · exact headerForm_ne_unknown _ hform

lemma fold_ne_unknown : ∀ (lines : List String) (current : String),
    current ≠ "UNKNOWN" →
    lines.foldl (fun cur l => detect_section l cur) current ≠ "UNKNOWN" := by
  intro lines
  induction lines with
  | nil => intro c h; exact h
  | cons l ls ih => intro c h; exact ih _ (detect_section_ne_unknown l c h)

/-- Claim C10: `detect_section` returns either one of the fixed
header-derived section strings or the current section unchanged; no rule
produces `"UNKNOWN"`, so a threaded section that differs from `"UNKNOWN"`
never reverts to it over any further line sequence. -/
theorem detect_section_no_unknown_revert (line current : String) :
    (detect_section line current = current ∨ headerForm (detect_section line current)) ∧
    (current ≠ "UNKNOWN" →
      ∀ lines : List String,
        lines.foldl (fun cur l => detect_section l cur) current ≠ "UNKNOWN") := by
  exact ⟨detect_section_cases line current, fun h lines => fold_ne_unknown lines current h⟩

theorem detect_section_no_unknown_revert_witness :
    (detect_section "GUR" "UNKNOWN" = "UNKNOWN" ∨
      headerForm (detect_section "GUR" "UNKNOWN")) ∧
    (["x y z"].foldl (fun cur l => detect_section l cur) "GUR" ≠ "UNKNOWN") :=
  ⟨(detect_section_no_unknown_revert "GUR" "UNKNOWN").1,
   (detect_section_no_unknown_revert "ignored" "GUR").2 (by decide) ["x y z"]⟩

lemma GRADE_TO_POINT_tenths (s : String) (g : ℚ) (h : GRADE_TO_POINT s = some g) :
    ∃ m : ℕ, g = m / 10 := by
  unfold GRADE_TO_POINT at h
  by_cases h1 : s = "A+"
  · rw [if_pos h1] at h; exact ⟨43, by rw [← Option.some.inj h]; norm_num⟩
  rw [if_neg h1] at h
  by_cases h2 : s = "A"
  · rw [if_pos h2] at h; exact ⟨40, by rw [← Option.some.inj h]; norm_num⟩
  rw [if_neg h2] at h
  by_cases h3 : s = "A-"
  · rw [if_pos h3] at h; exact ⟨37, by rw [← Option.some.inj h]; norm_num⟩
  rw [if_neg h3] at h
  by_cases h4 : s = "B+"
  · rw [if_pos h4] at h; exact ⟨33, by rw [← Option.some.inj h]; norm_num⟩
  rw [if_neg h4] at h
  by_cases h5 : s = "B"
  · rw [if_pos h5] at h; exact ⟨30, by rw [← Option.some.inj h]; norm_num⟩
  rw [if_neg h5] at h
  by_cases h6 : s = "B-"
  · rw [if_pos h6] at h; exact ⟨27, by rw [← Option.some.inj h]; norm_num⟩
  rw [if_neg h6] at h
  by_cases h7 : s = "C+"
  · rw [if_pos h7] at h; exact ⟨23, by rw [← Option.some.inj h]; norm_num⟩
  rw [if_neg h7] at h
  by_cases h8 : s = "C"
  · rw [if_pos h8] at h; exact ⟨20, by rw [← Option.some.inj h]; norm_num⟩
  rw [if_neg h8] at h
  by_cases h9 : s = "D+"
  · rw [if_pos h9] at h; exact ⟨13, by rw [← Option.some.inj h]; norm_num⟩
  rw [if_neg h9] at h
  by_cases h10 : s = "D"
  · rw [if_pos h10] at h; exact ⟨10, by rw [← Option.some.inj h]; norm_num⟩
  rw [if_neg h10] at h
  by_cases h11 : s = "F"
  · rw [if_pos h11] at h; exact ⟨0, by rw [← Option.some.inj h]; norm_num⟩
  rw [if_neg h11] at h
  cases h

lemma classify_tenths (s : String) (g : ℚ) (h : (classify_result s).2 = some g) :
    ∃ m : ℕ, g = m / 10 := by
  unfold classify_result at h
  by_cases h0 : s = ""
  · rw [if_pos h0] at h; cases h
  · rw [if_neg h0] at h
    cases hg : GRADE_TO_POINT s with
    | some p =>
      rw [hg] at h
      exact GRADE_TO_POINT_tenths s g (by rw [hg, Option.some.inj h])
    | none =>
      rw [hg] at h
      dsimp only at h
      split_ifs at h

lemma parseCredit_tenths (s : String) (h : isCreditTok s = true) :
    ∃ n : ℕ, parseCredit s = n / 10 := by
  simp only [isCreditTok, Bool.and_eq_true] at h
  obtain ⟨-, hrest⟩ := h
  unfold parseCredit
  cases hr : s.data.dropWhile Char.isDigit with
  | nil => rw [hr] at hrest; cases hrest
  | cons c frac =>
    rw [hr] at hrest
    cases frac with
    | nil => cases hrest
    | cons d frac' =>
      cases frac' with
      | cons e frac'' => cases hrest
      | nil =>
        simp only [Bool.and_eq_true, decide_eq_true_eq] at hrest
        obtain ⟨hc, -⟩ := hrest
        dsimp only
        rw [if_pos hc]
        refine ⟨10 * digitsToNat (s.data.takeWhile Char.isDigit) + digitsToNat [d], ?_⟩
        simp only [List.length_singleton, pow_one]
        push_cast
        field_simp
        ring

lemma parse_tenthGrained (line sec : String) (r : CourseRecord)
    (h : parse_course_from_line line sec = some r) : tenthGrained r := by
  obtain ⟨-, hgp, -, t, htc, hcr⟩ := parse_shape line sec r h
  constructor
  · rw [hcr]; exact parseCredit_tenths t htc
  · intro g hg
    rw [hgp] at hg
    exact classify_tenths r.result g hg

lemma totalCredits_tenths : ∀ (records : List CourseRecord),
    (∀ r ∈ records, tenthGrained r) → ∃ n : ℕ, totalCreditsOf records = n / 10 := by
  intro records
  induction records with
  | nil => exact fun _ => ⟨0, by simp [totalCreditsOf, includedRecords]⟩
  | cons r rs ih =>
    intro h
    obtain ⟨n, hn⟩ := ih fun x hx => h x (List.mem_cons_of_mem _ hx)
    by_cases hp : (r.status == "included" && r.grade_point.isSome) = true
    · obtain ⟨⟨k, hk⟩, -⟩ := h r (List.mem_cons_self r rs)
      refine ⟨k + n, ?_⟩
      have hstep : totalCreditsOf (r :: rs) = r.credits + totalCreditsOf rs := by
        simp [totalCreditsOf, includedRecords, List.filter_cons, hp]
      rw [hstep, hk, hn]
      push_cast
      ring
    · have hstep : totalCreditsOf (r :: rs) = totalCreditsOf rs := by
        simp [totalCreditsOf, includedRecords, List.filter_cons, hp]
      exact ⟨n, by rw [hstep, hn]⟩

lemma totalGp_hundredths : ∀ (records : List CourseRecord),
    (∀ r ∈ records, tenthGrained r) → ∃ n : ℕ, totalGpOf records = n / 100 := by
  intro records
  induction records with
  | nil => exact fun _ => ⟨0, by simp [totalGpOf, includedRecords]⟩
  | cons r rs ih =>
    intro h
    obtain ⟨n, hn⟩ := ih fun x hx => h x (List.mem_cons_of_mem _ hx)
    by_cases hp : (r.status == "included" && r.grade_point.isSome) = true
    · obtain ⟨⟨k, hk⟩, hgp⟩ := h r (List.mem_cons_self r rs)
      have hsome : ∃ g, r.grade_point = some g :=
        Option.isSome_iff_exists.mp (Bool.and_eq_true _ _ |>.mp hp).2
      obtain ⟨g, hg⟩ := hsome
      obtain ⟨m, hm⟩ := hgp g hg
      refine ⟨k * m + n, ?_⟩
      have hstep : totalGpOf (r :: rs) = r.credits * r.grade_point.getD 0 + totalGpOf rs := by
        simp [totalGpOf, includedRecords, List.filter_cons, hp]
      rw [hstep, hk, hg, Option.getD_some, hm, hn]
      push_cast
      ring
    · have hstep : totalGpOf (r :: rs) = totalGpOf rs := by
        simp [totalGpOf, includedRecords, List.filter_cons, hp]
      exact ⟨n, by rw [hstep, hn]⟩

lemma pyRound_exact (x : ℚ) (n : ℕ) (z : ℤ) (hz : x * 10 ^ n = z) : pyRound x n = x := by
  unfold pyRound
  rw [hz, round_intCast, ← hz]
  exact mul_div_cancel_right₀ x (by positivity)

lemma pyRound1_tenths (x : ℚ) (h : ∃ n : ℕ, x = n / 10) : pyRound x 1 = x := by
  obtain ⟨n, hn⟩ := h
  refine pyRound_exact x 1 n ?_
  rw [hn, pow_one]
  push_cast
  exact div_mul_cancel₀ _ (by norm_num)

lemma pyRound3_hundredths (x : ℚ) (h : ∃ n : ℕ, x = n / 100) : pyRound x 3 = x := by
  obtain ⟨n, hn⟩ := h
  refine pyRound_exact x 3 (10 * n) ?_
  rw [hn]
  push_cast
  field_simp
  ring

/-- Claim C7: the 3/1/3-decimal roundings in `compute_cgpa` are exact on
parser-produced data (credits and grade points are tenths), so the goal
projection the orchestrator performs on the reported sums operates on
values equal to the unrounded sums. -/
theorem rounding_reporting_only :
    (∀ (line sec : String) (r : CourseRecord),
      parse_course_from_line line sec = some r → tenthGrained r) ∧
    (∀ records : List CourseRecord, (∀ r ∈ records, tenthGrained r) →
      (compute_cgpa records).grade_points_sum = totalGpOf records ∧
      (compute_cgpa records).total_credits_counted = totalCreditsOf records ∧
      ∀ T g : ℚ,
        compute_goal_strategy (compute_cgpa records).grade_points_sum
          (compute_cgpa records).total_credits_counted T g =
        compute_goal_strategy (totalGpOf records) (totalCreditsOf records) T g) := by
  refine ⟨parse_tenthGrained, ?_⟩
  intro records h
  have h1 : (compute_cgpa records).grade_points_sum = totalGpOf records :=
    pyRound3_hundredths _ (totalGp_hundredths records h)
  have h2 : (compute_cgpa records).total_credits_counted = totalCreditsOf records :=
    pyRound1_tenths _ (totalCredits_tenths records h)
  exact ⟨h1, h2, fun T g => by rw [h1, h2]⟩

theorem rounding_reporting_only_witness :
    tenthGrained sampleRecordA ∧
    (compute_cgpa [sampleRecordA]).grade_points_sum = totalGpOf [sampleRecordA] := by
  have h1 := rounding_reporting_only.1 "COMP1000 3.0 A" "GUR" sampleRecordA (by rfl)
  refine ⟨h1, ?_⟩
  refine (rounding_reporting_only.2 [sampleRecordA] ?_).1
  intro r hr
  rw [List.mem_singleton] at hr
  rw [hr]
  exact h1

/-- Claim C9 (amended): a non-numeric target raises an uncaught conversion
failure, but only after the core pipeline has run (the target is read after
aggregation); a numeric target is passed to `compute_goal_strategy`
unchanged, with no range check at all. -/
theorem target_validation_amended (pages : List String) (gi : String) :
    (pyFloat (strip gi) = none →
      mainModel pages gi = ([Stage.pipeline, Stage.failure], none)) ∧
    (∀ g : ℚ, pyFloat (strip gi) = some g →
      (mainModel pages gi).1 = [Stage.pipeline, Stage.goalProjection] ∧
      (mainModel pages gi).2 = some (compute_goal_strategy
        (compute_cgpa
          (dedup_by_course_code (pipelineRecords (normalize_lines pages))).1).grade_points_sum
        (compute_cgpa
          (dedup_by_course_code (pipelineRecords (normalize_lines pages))).1).total_credits_counted
        109 g)) := by
  constructor
  · intro h
    simp only [mainModel, h]
  · intro g h
    constructor <;> simp only [mainModel, h]

theorem target_validation_amended_witness :
    mainModel [] "abc" = ([Stage.pipeline, Stage.failure], none) ∧
    (mainModel [] "4.0").1 = [Stage.pipeline, Stage.goalProjection] :=
  ⟨(target_validation_amended [] "abc").1 (by rfl),
   ((target_validation_amended [] "4.0").2 _ (by rfl)).1⟩

/-- Claim C9 as stated is false: with the out-of-range target `"9.9"` there
is no fast failure before the pipeline — the pipeline stage runs, no
failure stage occurs, and the goal projection is invoked with the
out-of-range target 9.9 > 4.3. -/
theorem target_validation_counterexample :
    (mainModel [] "9.9").1 = [Stage.pipeline, Stage.goalProjection] ∧
    ((mainModel [] "9.9").2.map fun s => s.goal_cgpa) = some (99 / 10) ∧
    ¬ ((99 : ℚ) / 10 ≤ 43 / 10) := by
  have h9 : digitsToNat ['9'] = 9 := by decide
  have hv0 : pyFloat (strip "9.9") =
      some (1 * ((digitsToNat ['9'] : ℚ) + (digitsToNat ['9'] : ℚ) / 10 ^ (1 : ℕ))) := rfl
  have hv : pyFloat (strip "9.9") = some (99 / 10) := by
    rw [hv0, h9]
    norm_num
  refine ⟨?_, ?_, by norm_num⟩
  · simp only [mainModel, hv]
  · simp only [mainModel, hv, Option.map_some']
    rfl

lemma alistFind_append (c : String) (l : List (String × CourseRecord))
    (k : String) (v : CourseRecord) :
    alistFind c (l ++ [(k, v)]) =
      match alistFind c l with
      | some w => some w
      | none => if k = c then some v else none := by
  induction l with
  | nil => rfl
  | cons p t ih =>
    obtain ⟨k', v'⟩ := p
    by_cases hp : k' = c
    · simp [alistFind, hp]
    · simp only [List.cons_append, alistFind, if_neg hp]
      exact ih

lemma alistFind_set_self (k : String) (w : CourseRecord) :
    ∀ (l : List (String × CourseRecord)) (v : CourseRecord),
      alistFind k l = some v → alistFind k (alistSet k w l) = some w := by
  intro l
  induction l with
  | nil => intro v h; cases h
  | cons p t ih =>
    intro v h
    obtain ⟨k', v'⟩ := p
    by_cases hp : k' = k
    · simp [alistFind, alistSet, hp]
    · simp only [alistFind, if_neg hp] at h
      simp only [alistSet, if_neg hp, alistFind]
      exact ih v h

lemma alistFind_set_ne (c k : String) (hck : ¬ k = c) (w : CourseRecord) :
    ∀ l : List (String × CourseRecord),
      alistFind c (alistSet k w l) = alistFind c l := by
  intro l
  induction l with
  | nil => rfl
  | cons p t ih =>
    obtain ⟨k', v'⟩ := p
    by_cases hp : k' = k
    · have hkc : ¬ k' = c := by rw [hp]; exact hck
      simp [alistSet, alistFind, hp, hkc, hck]
    · by_cases hc2 : k' = c
      · simp [alistSet, alistFind, hp, hc2, Ne.symm hck]
      · simp [alistSet, alistFind, hp, hc2, ih]

lemma alistSet_map_fst (k : String) (w : CourseRecord) :
    ∀ l : List (String × CourseRecord),
      (alistSet k w l).map Prod.fst = l.map Prod.fst := by
  intro l
  induction l with
  | nil => rfl
  | cons p t ih =>
    obtain ⟨k', v'⟩ := p
    by_cases hp : k' = k
    · simp [alistSet, hp]
    · simp [alistSet, hp, ih]

lemma alistFind_none_iff (c : String) :
    ∀ l : List (String × CourseRecord),
      alistFind c l = none ↔ c ∉ l.map Prod.fst := by
  intro l
  induction l with
  | nil => simp [alistFind]
  | cons p t ih =>
    obtain ⟨k', v'⟩ := p
    by_cases hp : k' = c
    · simp [alistFind, hp]
    · simp [alistFind, hp, ih, Ne.symm hp]

lemma alistFind_code (c : String) :
    ∀ (l : List (String × CourseRecord)) (v : CourseRecord),
      alistInv l → alistFind c l = some v → v.course_code = c := by
  intro l
  induction l with
  | nil => intro v _ h; cases h
  | cons p t ih =>
    intro v hinv h
    obtain ⟨k', v'⟩ := p
    by_cases hp : k' = c
    · simp only [alistFind, if_pos hp] at h
      rw [← Option.some.inj h, ← hp]
      exact hinv (k', v') (List.mem_cons_self _ _)
    · simp only [alistFind, if_neg hp] at h
      exact ih v (fun q hq => hinv q (List.mem_cons_of_mem _ hq)) h

lemma alistInv_append (l : List (String × CourseRecord)) (k : String) (v : CourseRecord)
    (hinv : alistInv l) (hv : v.course_code = k) : alistInv (l ++ [(k, v)]) := by
  intro p hp
  rcases List.mem_append.mp hp with hp | hp
  · exact hinv p hp
  · rw [List.mem_singleton.mp hp]
    exact hv

lemma alistInv_set (k : String) (w : CourseRecord) (hw : w.course_code = k) :
    ∀ l : List (String × CourseRecord), alistInv l → alistInv (alistSet k w l) := by
  intro l
  induction l with
  | nil => intro _ _ hp; cases hp
  | cons p t ih =>
    intro hinv q hq
    obtain ⟨k', v'⟩ := p
    by_cases hp : k' = k
    · rw [alistSet, if_pos hp] at hq
      rcases List.mem_cons.mp hq with hq | hq
      · rw [hq]; rw [hw, hp]
      · exact hinv q (List.mem_cons_of_mem _ hq)
    · rw [alistSet, if_neg hp] at hq
      rcases List.mem_cons.mp hq with hq | hq
      · rw [hq]; exact hinv (k', v') (List.mem_cons_self _ _)
      · exact ih (fun x hx => hinv x (List.mem_cons_of_mem _ hx)) q hq

lemma alistSet_codes (k : String) (w : CourseRecord) (hw : w.course_code = k) :
    ∀ l : List (String × CourseRecord), alistInv l →
      (alistSet k w l).map (fun p => p.2.course_code) =
        l.map (fun p => p.2.course_code) := by
  intro l
  induction l with
  | nil => intro _; rfl
  | cons p t ih =>
    intro hinv
    obtain ⟨k', v'⟩ := p
    by_cases hp : k' = k
    · have hv' : v'.course_code = k' := hinv (k', v') (List.mem_cons_self _ _)
      simp [alistSet, hp, hw, hv']
    · simp [alistSet, hp, ih fun x hx => hinv x (List.mem_cons_of_mem _ hx)]

lemma alistFind_of_mem_nodup :
    ∀ (l : List (String × CourseRecord)), (l.map Prod.fst).Nodup →
      ∀ (k : String) (v : CourseRecord), (k, v) ∈ l → alistFind k l = some v := by
  intro l
  induction l with
  | nil => intro _ k v h; cases h
  | cons p t ih =>
    intro hnd k v h
    obtain ⟨k', v'⟩ := p
    rcases List.mem_cons.mp h with h | h
    · obtain ⟨h1, h2⟩ := Prod.mk.injEq .. ▸ h
      rw [alistFind, if_pos h1.symm, h2]
    · have hk : k ∈ t.map Prod.fst := List.mem_map.mpr ⟨(k, v), h, rfl⟩
      have hk' : k' ∉ t.map Prod.fst := by
        simp only [List.map_cons, List.nodup_cons] at hnd
        exact hnd.1
      have hne : ¬ k' = k := fun he => hk' (he ▸ hk)
      rw [alistFind, if_neg hne]
      exact ih (by simp only [List.map_cons, List.nodup_cons] at hnd; exact hnd.2) k v h

lemma perm_snoc_shift {α : Type} (A B C : List α) (x : α) :
    (((A ++ [x]) ++ B) ++ C).Perm ((A ++ B) ++ (x :: C)) := by
  have h1 : ((A ++ [x]) ++ B) ++ C = A ++ (x :: (B ++ C)) := by
    simp [List.append_assoc]
  have h2 : (A ++ B) ++ (x :: C) = A ++ (B ++ (x :: C)) := by
    simp [List.append_assoc]
  rw [h1, h2]
  exact List.Perm.append_left _ List.perm_middle.symm

lemma perm_mid_shift {α : Type} (A B C : List α) (x : α) :
    ((A ++ (B ++ [x])) ++ C).Perm ((A ++ B) ++ (x :: C)) := by
  have h1 : (A ++ (B ++ [x])) ++ C = (A ++ B) ++ (x :: C) := by
    simp [List.append_assoc]
  rw [h1]

lemma dedupFold_inv : ∀ (rs : List CourseRecord) (chosen : List (String × CourseRecord))
    (logs : List DedupLog), alistInv chosen → alistInv (dedupFold rs chosen logs).1 := by
  intro rs
  induction rs with
  | nil => intro chosen logs h; exact h
  | cons r rs ih =>
    intro chosen logs h
    rw [dedupFold]
    cases hf : alistFind r.course_code chosen with
    | none =>
      dsimp only
      exact ih _ _ (alistInv_append chosen r.course_code r h rfl)
    | some kept =>
      dsimp only
      by_cases hsc : scoreLtB (score kept) (score r) = true
      · rw [if_pos hsc]
        exact ih _ _ (alistInv_set r.course_code r rfl chosen h)
      · rw [if_neg hsc]
        exact ih _ _ h

lemma dedupFold_nodup : ∀ (rs : List CourseRecord) (chosen : List (String × CourseRecord))
    (logs : List DedupLog), (chosen.map Prod.fst).Nodup →
    ((dedupFold rs chosen logs).1.map Prod.fst).Nodup := by
  intro rs
  induction rs with
  | nil => intro chosen logs h; exact h
  | cons r rs ih =>
    intro chosen logs h
    rw [dedupFold]
    cases hf : alistFind r.course_code chosen with
    | none =>
      dsimp only
      refine ih _ _ ?_
      have hx : r.course_code ∉ chosen.map Prod.fst := (alistFind_none_iff _ _).mp hf
      have hperm := List.perm_append_singleton r.course_code (chosen.map Prod.fst)
      rw [List.map_append]
      exact hperm.nodup_iff.mpr (List.nodup_cons.mpr ⟨hx, h⟩)
    | some kept =>
      dsimp only
      by_cases hsc : scoreLtB (score kept) (score r) = true
      · rw [if_pos hsc]
        refine ih _ _ ?_
        rw [alistSet_map_fst]
        exact h
      · rw [if_neg hsc]
        exact ih _ _ h

lemma pickFrom_cons (acc : Option CourseRecord) (x : CourseRecord) (l : List CourseRecord) :
    pickFrom acc (x :: l) = pickFrom (pickStep acc x) l := rfl

lemma dedupFold_find : ∀ (rs : List CourseRecord) (chosen : List (String × CourseRecord))
    (logs : List DedupLog) (c : String),
    alistFind c (dedupFold rs chosen logs).1 =
      pickFrom (alistFind c chosen) (rs.filter fun x => x.course_code == c) := by
  intro rs
  induction rs with
  | nil => intro chosen logs c; rfl
  | cons r rs ih =>
    intro chosen logs c
    rw [dedupFold]
    cases hf : alistFind r.course_code chosen with
    | none =>
      dsimp only
      rw [ih]
      by_cases hc : r.course_code = c
      · have hfc : alistFind c chosen = none := by rw [← hc]; exact hf
        rw [List.filter_cons, if_pos (by simp [hc])]
        rw [pickFrom_cons, hfc]
        have happ : alistFind c (chosen ++ [(r.course_code, r)]) = some r := by
          rw [alistFind_append, hfc]
          dsimp only
          rw [if_pos hc]
        rw [happ]
        rfl
      · rw [List.filter_cons, if_neg (by simp [hc])]
        have happ : alistFind c (chosen ++ [(r.course_code, r)]) = alistFind c chosen := by
          rw [alistFind_append]
          cases hacc : alistFind c chosen with
          | none => dsimp only; rw [if_neg hc]
          | some w => rfl
        rw [happ]
    | some kept =>
      dsimp only
      by_cases hsc : scoreLtB (score kept) (score r) = true
      · rw [if_pos hsc, ih]
        by_cases hc : r.course_code = c
        · subst hc
          rw [List.filter_cons, if_pos (by simp)]
          rw [pickFrom_cons, hf]
          rw [alistFind_set_self r.course_code r chosen kept hf]
          have hstep : pickStep (some kept) r = some r := by
            simp [pickStep, hsc]
          rw [hstep]
        · rw [List.filter_cons, if_neg (by simp [hc])]
          rw [alistFind_set_ne c r.course_code hc r chosen]
      · rw [if_neg hsc, ih]
        by_cases hc : r.course_code = c
        · subst hc
          rw [List.filter_cons, if_pos (by simp)]
          rw [pickFrom_cons, hf]
          have hstep : pickStep (some kept) r = some kept := by
            simp [pickStep, hsc]
          rw [hstep]
        · rw [List.filter_cons, if_neg (by simp [hc])]

lemma dedupFold_perm : ∀ (rs : List CourseRecord) (chosen : List (String × CourseRecord))
    (logs : List DedupLog), alistInv chosen →
    (((dedupFold rs chosen logs).1.map fun p => p.2.course_code) ++
      ((dedupFold rs chosen logs).2.map fun e => e.course_code)).Perm
    (((chosen.map fun p => p.2.course_code) ++ (logs.map fun e => e.course_code)) ++
      (rs.map fun x => x.course_code)) := by
  intro rs
  induction rs with
  | nil =>
    intro chosen logs _
    simp [dedupFold]
  | cons r rs ih =>
    intro chosen logs hinv
    rw [dedupFold]
    cases hf : alistFind r.course_code chosen with
    | none =>
      dsimp only
      have h1 := ih (chosen ++ [(r.course_code, r)]) logs
        (alistInv_append chosen r.course_code r hinv rfl)
      refine h1.trans ?_
      rw [List.map_append]
      dsimp only [List.map_cons, List.map_nil]
      exact perm_snoc_shift _ _ _ _
    | some kept =>
      dsimp only
      have hkc : kept.course_code = r.course_code :=
        alistFind_code r.course_code chosen kept hinv hf
      by_cases hsc : scoreLtB (score kept) (score r) = true
      · rw [if_pos hsc]
        have h1 := ih (alistSet r.course_code r chosen)
          (logs ++ [{ course_code := kept.course_code
                      dropped_section := kept.sectionName
                      kept_section := r.sectionName
                      reason := "dedup_replaced_with_higher_priority_record" }])
          (alistInv_set r.course_code r rfl chosen hinv)
        refine h1.trans ?_
        rw [alistSet_codes r.course_code r rfl chosen hinv, List.map_append]
        dsimp only [List.map_cons, List.map_nil]
        rw [hkc]
        exact perm_mid_shift _ _ _ _
      · rw [if_neg hsc]
        have h1 := ih chosen
          (logs ++ [{ course_code := r.course_code
                      dropped_section := r.sectionName
                      kept_section := kept.sectionName
                      reason := "dedup_dropped_lower_priority_record" }]) hinv
        refine h1.trans ?_
        rw [List.map_append]
        dsimp only [List.map_cons, List.map_nil]
        exact perm_mid_shift _ _ _ _

lemma scoreLtB_trans (x y z : ℕ × ℕ) (h1 : scoreLtB x y = true) (h2 : scoreLtB y z = true) :
    scoreLtB x z = true := by
  simp only [scoreLtB, Bool.or_eq_true, Bool.and_eq_true, decide_eq_true_eq] at h1 h2 ⊢
  omega

lemma scoreLtB_t3 (x y z : ℕ × ℕ) (h1 : scoreLtB z x = true) (h2 : scoreLtB z y = false) :
    scoreLtB y x = true := by
  simp only [scoreLtB, Bool.or_eq_true, Bool.and_eq_true, decide_eq_true_eq] at h1 ⊢
  have h2' : ¬ (z.1 < y.1 ∨ (z.1 = y.1 ∧ z.2 < y.2)) := by
    intro hcon
    have hzy : scoreLtB z y = true := by
      simp only [scoreLtB, Bool.or_eq_true, Bool.and_eq_true, decide_eq_true_eq]
      exact hcon
    rw [h2] at hzy
    cases hzy
  push_neg at h2'
  omega

lemma pickFrom_some (l : List CourseRecord) : ∀ k : CourseRecord,
    pickFrom (some k) l =
      some (chooseFold (fun a b => scoreLtB (score b) (score a)) l k) := by
  induction l with
  | nil => intro k; rfl
  | cons r t ih =>
    intro k
    rw [pickFrom_cons]
    by_cases hc : scoreLtB (score k) (score r) = true
    · have hcf : chooseFold (fun a b => scoreLtB (score b) (score a)) (r :: t) k =
          chooseFold (fun a b => scoreLtB (score b) (score a)) t r := by
        rw [chooseFold]
        rw [if_pos hc]
      rw [hcf, show pickStep (some k) r = some r from by simp [pickStep, hc], ih]
    · have hcf : chooseFold (fun a b => scoreLtB (score b) (score a)) (r :: t) k =
          chooseFold (fun a b => scoreLtB (score b) (score a)) t k := by
        rw [chooseFold]
        rw [if_neg hc]
      rw [hcf, show pickStep (some k) r = some k from by simp [pickStep, hc], ih]

lemma pickFrom_none_spec (l : List CourseRecord) (m : CourseRecord)
    (h : pickFrom none l = some m) :
    ∃ l₁ l₂, l = l₁ ++ m :: l₂ ∧
      (∀ x ∈ l₁, scoreLtB (score x) (score m) = true) ∧
      (∀ x ∈ l₂, scoreLtB (score m) (score x) = false) := by
  cases l with
  | nil => cases h
  | cons b bs =>
    rw [pickFrom_cons] at h
    have hb : pickStep none b = some b := rfl
    rw [hb, pickFrom_some] at h
    have hm := Option.some.inj h
    have hT1 : ∀ a b c : CourseRecord,
        (fun a b => scoreLtB (score b) (score a)) a b = true →
        (fun a b => scoreLtB (score b) (score a)) b c = true →
        (fun a b => scoreLtB (score b) (score a)) a c = true :=
      fun a b c h1 h2 => scoreLtB_trans (score c) (score b) (score a) h2 h1
    have hT3 : ∀ a b c : CourseRecord,
        (fun a b => scoreLtB (score b) (score a)) a c = true →
        (fun a b => scoreLtB (score b) (score a)) b c = false →
        (fun a b => scoreLtB (score b) (score a)) a b = true :=
      fun a b c h1 h2 => scoreLtB_t3 (score a) (score b) (score c) h1 h2
    rcases chooseFold_spec _ hT1 hT3 bs b with ⟨heq, hall⟩ | ⟨l₁, l₂, hsplit, hbt, hl₁, hl₂⟩
    · rw [heq] at hm hall
      refine ⟨[], bs, ?_, by simp, ?_⟩
      · rw [List.nil_append, hm]
      · intro x hx
        rw [← hm]
        exact hall x hx
    · rw [hm] at hsplit hbt hl₁ hl₂
      refine ⟨b :: l₁, l₂, by rw [List.cons_append, ← hsplit], ?_, hl₂⟩
      intro x hx
      rcases List.mem_cons.mp hx with hxb | hx'
      · rw [hxb]; exact hbt
      · exact hl₁ x hx'

/-- Claim C1: dedup keeps at most one record per course code; kept plus
logged course codes form the input multiset with multiplicity; and each
kept record is the earliest record of its code attaining the maximal
(status-priority, term-presence) score under the stable left-to-right
fold with strict replacement. -/
theorem dedup_uniqueness_and_accounting (records : List CourseRecord) :
    ((dedup_by_course_code records).1.map fun r => r.course_code).Nodup ∧
    ((((dedup_by_course_code records).1.map fun r => r.course_code : List String) :
        Multiset String) +
      (((dedup_by_course_code records).2.map fun e => e.course_code : List String) :
        Multiset String) =
      ((records.map fun r => r.course_code : List String) : Multiset String)) ∧
    ∀ r ∈ (dedup_by_course_code records).1,
      ∃ l₁ l₂,
        records.filter (fun x => x.course_code == r.course_code) = l₁ ++ r :: l₂ ∧
        (∀ x ∈ l₁, scoreLtB (score x) (score r) = true) ∧
        (∀ x ∈ l₂, scoreLtB (score r) (score x) = false) := by
  have hinv0 : alistInv ([] : List (String × CourseRecord)) := by
    intro p hp; cases hp
  have hinvF := dedupFold_inv records [] [] hinv0
  have hcodes : (dedup_by_course_code records).1.map (fun r => r.course_code) =
      (dedupFold records [] []).1.map fun p => p.2.course_code := by
    simp [dedup_by_course_code, List.map_map, Function.comp]
  refine ⟨?_, ?_, ?_⟩
  · rw [hcodes]
    rw [List.map_congr_left fun p hp => hinvF p hp]
    exact dedupFold_nodup records [] [] (by simp)
  · have hperm := dedupFold_perm records [] [] hinv0
    simp only [List.map_nil, List.nil_append] at hperm
    rw [hcodes]
    have hlogs : (dedup_by_course_code records).2 = (dedupFold records [] []).2 := rfl
    rw [hlogs, Multiset.coe_add]
    exact Multiset.coe_eq_coe.mpr hperm
  · intro r hr
    have hr' : r ∈ (dedupFold records [] []).1.map (·.2) := hr
    obtain ⟨p, hp, hpr⟩ := List.mem_map.mp hr'
    have hcode : p.1 = r.course_code := by rw [← hpr]; exact (hinvF p hp).symm
    have hnd : ((dedupFold records [] []).1.map Prod.fst).Nodup :=
      dedupFold_nodup records [] [] (by simp)
    have hfind : alistFind r.course_code (dedupFold records [] []).1 = some r := by
      have hfd := alistFind_of_mem_nodup _ hnd p.1 p.2 (by rw [Prod.mk.eta]; exact hp)
      rw [hcode, hpr] at hfd
      exact hfd
    rw [dedupFold_find records [] [] r.course_code] at hfind
    exact pickFrom_none_spec _ r hfind

theorem dedup_uniqueness_and_accounting_witness :
    ((dedup_by_course_code [sampleRecordU, sampleRecordB]).1.map fun r => r.course_code).Nodup ∧
    ∃ l₁ l₂,
      [sampleRecordU, sampleRecordB].filter
        (fun x => x.course_code == sampleRecordB.course_code) = l₁ ++ sampleRecordB :: l₂ ∧
      (∀ x ∈ l₁, scoreLtB (score x) (score sampleRecordB) = true) ∧
      (∀ x ∈ l₂, scoreLtB (score sampleRecordB) (score x) = false) :=
  ⟨(dedup_uniqueness_and_accounting [sampleRecordU, sampleRecordB]).1,
   (dedup_uniqueness_and_accounting [sampleRecordU, sampleRecordB]).2.2 sampleRecordB
     (by decide)⟩
